import Mathlib

/-!
Verification of the Nexus 433 MHz decoder
(src/433-Nexus-to-Serial-Arduino/433-Nexus-to-Serial-Arduino.ino).

The sketch is embedded shallowly: machine integers become Nat with explicit
reductions modulo 2^w at the points where the C code truncates, the
interrupt handler becomes a state-transition function, and the queue-draining
part of loop() becomes a recursive function over the queued frames.
-/

set_option maxRecDepth 10000

namespace Nexus

/-- Pulse tolerance in microseconds (line 121 of the sketch). -/
def TOL : Nat := 100

/-- Duration computation of the interrupt handler (line 377):
uint32_t d = t - t0 with t : uint32_t and t0 : uint64_t.  In C the
subtraction is performed modulo 2^64 after promoting t, and the result is
truncated to 32 bits by the assignment. -/
def duration (t t0 : Nat) : Nat :=
  ((t + (2 ^ 64 - t0 % 2 ^ 64)) % 2 ^ 64) % 2 ^ 32

/-- Capacity of the frame queue (line 123: SimpleFIFO with 10 slots). -/
def fifoCapacity : Nat := 10

/-- Modelled from the spec: SimpleFIFO.h is not among the repository sources
under src/.  Sections 3 and 7 of the specification describe the queue as a
bounded FIFO of capacity 10 whose enqueue on a full queue silently overwrites
the oldest unread frame.  The queue is a list with its head at the dequeue
end. -/
def enqueue (q : List Nat) (v : Nat) : List Nat :=
  if q.length < fifoCapacity then q ++ [v] else q.tail ++ [v]

/-- State shared by the interrupt handler (lines 126-129): the accumulator
val, the previous edge time t0, the bit counter bits (a uint8_t, hence kept
below 256), the previous pin level s0 and the gotone flag, plus the frame
queue. -/
structure RxState where
  val : Nat
  t0 : Nat
  bits : Nat
  s0 : Bool
  gotone : Bool
  fifo : List Nat

/-- Interrupt handler (lines 373-412).  Inputs: the pin level s read at the
edge and the microsecond timestamp t (a uint32_t, so callers keep t below
2^32).  Durations near 1000 us append a 0 bit, near 2000 us a 1 bit, near
4000 us act as a frame boundary; a high pulse near 500 us sets gotone. -/
def handleInterrupt (st : RxState) (s : Bool) (t : Nat) : RxState :=
  let d := duration t st.t0
  if st.s0 ≠ s then
    if s = true then
      if st.gotone = true then
        if 1000 - TOL < d ∧ d < 1000 + TOL then
          { st with val := (st.val <<< 1) % 2 ^ 64, bits := (st.bits + 1) % 256,
                    t0 := t, s0 := s }
        else if 2000 - TOL < d ∧ d < 2000 + TOL then
          { st with val := ((st.val <<< 1) % 2 ^ 64) ||| 1, bits := (st.bits + 1) % 256,
                    t0 := t, s0 := s }
        else if 4000 - TOL < d ∧ d < 4000 + TOL then
          { st with fifo := if st.bits = 36 then enqueue st.fifo st.val else st.fifo,
                    val := 0, bits := 0, t0 := t, s0 := s }
        else
          { st with t0 := t, s0 := s }
      else
        { st with t0 := t, s0 := s }
    else
      if 500 - TOL < d ∧ d < 500 + TOL then
        { st with gotone := true, t0 := t, s0 := s }
      else
        { st with gotone := false, t0 := t, s0 := s }
  else st

/-- Run the interrupt handler over a list of (level, timestamp) edges. -/
def runEdges (st : RxState) (es : List (Bool × Nat)) : RxState :=
  es.foldl (fun acc e => handleInterrupt acc e.1 e.2) st

/-- Initial state of the sketch: all counters zero, pin level low, no marker
seen, empty queue (lines 126-129). -/
def initState : RxState :=
  { val := 0, t0 := 0, bits := 0, s0 := false, gotone := false, fifo := [] }

/-- Marker check of loop() line 189: bits 8 to 11 of the dequeued value must
all be one. -/
def markerOk (lval : Nat) : Bool :=
  (lval >>> 8) &&& 0xF == 0xF

/-- Result of draining the queue in one evaluation tick: the accepted frames
in emission order, the frames left in the queue when the while loop exits,
and the final refval / twoValidSets values. -/
structure EvalResult where
  emitted : List Nat
  leftover : List Nat
  refval : Nat
  twoValidSets : Bool

/-- The while loop of loop() (lines 171-198).  Each dequeued lval is checked
only while twoValidSets is false; the marker check guards both the duplicate
comparison and the refval update (the brace at line 195 closes the marker
branch after refval = lval at line 194).  On acceptance evaluateBitSeries
sets twoValidSets, flushes the queue (line 302) and the record is emitted. -/
def drain : List Nat → Nat → Bool → EvalResult
  | [], refval, twoValidSets => ⟨[], [], refval, twoValidSets⟩
  | lval :: rest, refval, twoValidSets =>
    if twoValidSets = false then
      if markerOk lval = true then
        if lval = refval then ⟨[lval], [], lval, true⟩
        else drain rest lval twoValidSets
      else drain rest refval twoValidSets
    else drain rest refval twoValidSets

/-- Reduction of a Nat to the range of a uint16_t. -/
def u16 (n : Nat) : Nat := n % 65536

/-- Reinterpretation of a Nat as an int16_t, as the cast at line 264 does. -/
def i16 (n : Nat) : Int :=
  if u16 n < 32768 then (u16 n : Int) else (u16 n : Int) - 65536

/-- Humidity extraction (line 213). -/
def humidity (lval : Nat) : Nat := lval &&& 0xFF

/-- Temperature extraction (lines 243-275).  When bit 23 is set, the 12-bit
field is widened to uint16_t (dummy1), OR-ed with 0xFFFFF000 and truncated to
uint16_t (dummy2), then cast to int16_t; otherwise the field is assigned
directly. -/
def temperature (lval : Nat) : Int :=
  if (lval >>> 23) &&& 0x1 = 0b1 then
    let dummy1 : Nat := u16 ((lval >>> 12) &&& 0xFFF)
    let dummy2 : Nat := u16 (dummy1 ||| 0xFFFFF000)
    i16 dummy2
  else
    i16 ((lval >>> 12) &&& 0xFFF)

/-- Channel extraction (line 284), kept literally with its 0x2 mask. -/
def channel (lval : Nat) : Nat := (lval >>> 24) &&& 0x2

/-- Battery flag extraction (line 291). -/
def battery (lval : Nat) : Nat := (lval >>> 27) &&& 0x1

/-- Sensor id extraction (line 292). -/
def id (lval : Nat) : Nat := (lval >>> 28) &&& 0xFF

/-- Configured tags (lines 99-104). -/
def databasename : String := "telemetrie"

/-- QTH locator tag (line 100). -/
def qthlocator : String := "JN58SC"

/-- Sensor type tag (line 101). -/
def sensortyp : String := "Nexus"

/-- Field name of the first measured property (line 102). -/
def measuredProperty1 : String := "temperature"

/-- Field name of the second measured property (line 103). -/
def measuredProperty2 : String := "battery"

/-- Field name of the third measured property (line 104). -/
def measuredProperty3 : String := "humidity"

/-- Message composition of sendDataToSerial (lines 333-368), with the
extracted values as parameters.  Arduino String concatenation prints uint8_t
and int16_t operands in decimal, which toString mirrors. -/
def sendDataToSerial (id : Nat) (temperature : Int) (battery : Nat) (humidity : Nat) : String :=
  let influxdbmessage1 := databasename ++ ",qth=" ++ qthlocator ++ ",sensor=" ++
    sensortyp ++ ",number=" ++ toString id ++ " " ++ measuredProperty1 ++ "="
  let influxdbmessage2 := "," ++ measuredProperty2 ++ "="
  let influxdbmessage3 := "," ++ measuredProperty3 ++ "="
  influxdbmessage1 ++ toString temperature ++ influxdbmessage2 ++ toString battery ++
    influxdbmessage3 ++ toString humidity

/-- Record template as written in section 6 of the specification, with the
configured tags substituted. -/
def specRecord (id : Nat) (temperature : Int) (battery : Nat) (humidity : Nat) : String :=
  "telemetrie,qth=JN58SC,sensor=Nexus,number=" ++ toString id ++ " temperature=" ++
    toString temperature ++ ",battery=" ++ toString battery ++ ",humidity=" ++
    toString humidity

/-- Interpretation of the 12-bit temperature field as a signed two's
complement value, the reading used by the specification (section 4.4). -/
def signExtend12 (field : Nat) : Int :=
  if field < 2 ^ 11 then (field : Int) else (field : Int) - 2 ^ 12

/-- Ghost bit counter: the exact number of bits appended since the last
accumulator reset, updated alongside handleInterrupt but without the uint8_t
wrap of bits. -/
def ghostCount (st : RxState) (s : Bool) (t : Nat) (n : Nat) : Nat :=
  if st.s0 ≠ s ∧ s = true ∧ st.gotone = true then
    if 1000 - TOL < duration t st.t0 ∧ duration t st.t0 < 1000 + TOL then n + 1
    else if 2000 - TOL < duration t st.t0 ∧ duration t st.t0 < 2000 + TOL then n + 1
    else if 4000 - TOL < duration t st.t0 ∧ duration t st.t0 < 4000 + TOL then 0
    else n
  else n

/-- Relation between the receiver state and the ghost bit counter: bits is
the counter reduced modulo 256 and the accumulator is bounded by the number
of appended bits, saturating at the 64-bit width. -/
def countedInv (st : RxState) (n : Nat) : Prop :=
  st.bits = n % 256 ∧ st.val < 2 ^ (min n 64)

/-- Edge sequence of one valid 500 us high pulse followed by a 2000 us low
period (a 1 bit), repeated, and closed by a 500 us pulse and a 4000 us gap.
Used to build concrete interrupt traces. -/
def mkOnes : Nat → Nat → List (Bool × Nat)
  | 0, t => [(false, t + 500), (true, t + 4500)]
  | n + 1, t => (false, t + 500) :: (true, t + 2500) :: mkOnes n (t + 2500)

/-! ## Helper lemmas -/

/-- The channel expression only looks at bit 25 of the frame. -/
lemma channel_eq_testBit (f : Nat) : channel f = (f.testBit 25).toNat * 2 := by
  unfold channel
  rw [show (0x2 : Nat) = 2 ^ 1 from rfl, Nat.and_two_pow, Nat.testBit_shiftRight]

/-- OR-ing 1 into an even number just adds one. -/
lemma or_one_of_even (m : Nat) (h : m % 2 = 0) : m ||| 1 = m + 1 := by
  apply Nat.eq_of_testBit_eq
  intro i
  rw [Nat.testBit_or]
  cases i with
  | zero =>
      simp only [Nat.testBit_zero]
      have h1 : m % 2 ≠ 1 := by omega
      have h2 : (m + 1) % 2 = 1 := by omega
      simp [h1, h2]
  | succ i =>
      rw [Nat.testBit_succ, Nat.testBit_succ, Nat.testBit_succ]
      have h1 : (1 : Nat) / 2 = 0 := by omega
      have h2 : (m + 1) / 2 = m / 2 := by omega
      simp [h1, h2]

/-! ## C6: wraparound-correct duration -/

/-- C6: for timestamps t and t0 below 2^32, the duration computed by the
interrupt handler equals (t - t0) modulo 2^32, i.e. unsigned 32-bit
subtraction, which is the correct elapsed time even if the microsecond timer
wrapped between the two edges, despite t0 living in a 64-bit variable. -/
theorem duration_wraparound (t t0 : Nat) (h1 : t < 2 ^ 32) (h2 : t0 < 2 ^ 32) :
    duration t t0 = (t + 2 ^ 32 - t0) % 2 ^ 32 ∧
    (duration t t0 : Int) = ((t : Int) - (t0 : Int)) % 2 ^ 32 ∧
    (t0 ≤ t → duration t t0 = t - t0) := by
  unfold duration
  refine ⟨by omega, ?_, by omega⟩
  omega

/-- Witness for C6 at a wrapped pair of timestamps: the timer overflowed
between t0 = 2^32 - 1 and t = 5, and the computed duration is 6. -/
theorem duration_wraparound_witness :
    duration 5 4294967295 = (5 + 2 ^ 32 - 4294967295) % 2 ^ 32 ∧
    (duration 5 4294967295 : Int) = ((5 : Int) - (4294967295 : Int)) % 2 ^ 32 ∧
    (4294967295 ≤ 5 → duration 5 4294967295 = 5 - 4294967295) :=
  duration_wraparound 5 4294967295 (by decide) (by decide)

/-! ## C10: channel extraction -/

/-- C10: the channel value ((f >>> 24) &&& 0x2) is always 0 or 2, never 1 or
3, and bit 24 of the frame (the low bit of the protocol channel field) never
affects it: toggling bit 24 leaves the reported channel unchanged. -/
theorem channel_range_and_bit24 (f : Nat) :
    (channel f = 0 ∨ channel f = 2) ∧ channel f ≠ 1 ∧ channel f ≠ 3 ∧
    channel (f ^^^ (1 <<< 24)) = channel f := by
  have hx : (f ^^^ (1 <<< 24)).testBit 25 = f.testBit 25 := by
    rw [Nat.testBit_xor, show (1 <<< 24 : Nat) = 2 ^ 24 by simp [Nat.shiftLeft_eq],
      Nat.testBit_two_pow_of_ne (by omega)]
    cases f.testBit 25 <;> rfl
  rw [channel_eq_testBit, channel_eq_testBit, hx]
  cases f.testBit 25 <;> simp

/-! ## C1: duration window classification -/

/-- C1 counterexample: the claim reads its windows as within plus or minus
100 us inclusively (the specification writes closed intervals), so d = 900
falls in the 0-bit window and the Assembler should append a 0 bit and
increment bit_count.  The code uses strict comparisons (d > 1000 - TOL), so
at d = 900, with gotone set and a rising edge, nothing at all happens. -/
theorem window_endpoint_counterexample :
    (1000 - TOL ≤ duration 900 0 ∧ duration 900 0 ≤ 1000 + TOL) ∧
    (handleInterrupt ⟨0, 0, 0, false, true, []⟩ true 900).bits = 0 ∧
    (handleInterrupt ⟨0, 0, 0, false, true, []⟩ true 900).val = 0 ∧
    (handleInterrupt ⟨0, 0, 0, false, true, []⟩ true 900).fifo = [] := by
  decide

/-- C1 amended: for every rising edge (st.s0 differs from s = true) processed
while gotone is true, with d the computed duration: if d lies strictly
within 100 us of 1000 us a 0 bit is appended and bit_count incremented; if
strictly within 100 us of 2000 us a 1 bit is appended and bit_count
incremented; if strictly within 100 us of 4000 us the gap acts as a frame
boundary; and outside all three (strict) windows the accumulator, bit_count
and queue are unchanged. -/
theorem window_classification (st : RxState) (s : Bool) (t : Nat)
    (hs0 : st.s0 ≠ s) (hs : s = true) (hg : st.gotone = true) :
    (1000 - TOL < duration t st.t0 ∧ duration t st.t0 < 1000 + TOL →
      (handleInterrupt st s t).val = (2 * st.val) % 2 ^ 64 ∧
      (handleInterrupt st s t).bits = (st.bits + 1) % 256 ∧
      (handleInterrupt st s t).fifo = st.fifo) ∧
    (2000 - TOL < duration t st.t0 ∧ duration t st.t0 < 2000 + TOL →
      (handleInterrupt st s t).val = (2 * st.val + 1) % 2 ^ 64 ∧
      (handleInterrupt st s t).bits = (st.bits + 1) % 256 ∧
      (handleInterrupt st s t).fifo = st.fifo) ∧
    (4000 - TOL < duration t st.t0 ∧ duration t st.t0 < 4000 + TOL →
      (handleInterrupt st s t).val = 0 ∧ (handleInterrupt st s t).bits = 0 ∧
      (handleInterrupt st s t).fifo =
        (if st.bits = 36 then enqueue st.fifo st.val else st.fifo)) ∧
    (¬(1000 - TOL < duration t st.t0 ∧ duration t st.t0 < 1000 + TOL) →
      ¬(2000 - TOL < duration t st.t0 ∧ duration t st.t0 < 2000 + TOL) →
      ¬(4000 - TOL < duration t st.t0 ∧ duration t st.t0 < 4000 + TOL) →
      (handleInterrupt st s t).val = st.val ∧
      (handleInterrupt st s t).bits = st.bits ∧
      (handleInterrupt st s t).fifo = st.fifo) := by
  subst hs
  have hval : st.val <<< 1 = 2 * st.val := by
    rw [Nat.shiftLeft_eq]; ring
  have hor : (2 * st.val) % 2 ^ 64 ||| 1 = (2 * st.val + 1) % 2 ^ 64 := by
    rw [or_one_of_even _ (by omega)]; omega
  unfold handleInterrupt
  rw [if_pos hs0, if_pos rfl, if_pos hg]
  refine ⟨fun h1 => ?_, fun h2 => ?_, fun h4 => ?_, fun n1 n2 n4 => ?_⟩
  · rw [if_pos h1]
    exact ⟨by rw [hval], rfl, rfl⟩
  · rw [if_neg (by simp [TOL] at h2 ⊢; omega), if_pos h2]
    exact ⟨by rw [hval, hor], rfl, rfl⟩
  · rw [if_neg (by simp [TOL] at h4 ⊢; omega), if_neg (by simp [TOL] at h4 ⊢; omega),
      if_pos h4]
    exact ⟨rfl, rfl, rfl⟩
  · rw [if_neg n1, if_neg n2, if_neg n4]
    exact ⟨rfl, rfl, rfl⟩

/-- Witness for the amended C1 at a concrete 0-bit append: starting from a
state with gotone set and an empty accumulator, a rising edge at d = 1000
yields bit_count 1 and accumulator 0. -/
theorem window_classification_witness :
    (handleInterrupt ⟨0, 0, 0, false, true, []⟩ true 1000).bits = (0 + 1) % 256 ∧
    (handleInterrupt ⟨0, 0, 0, false, true, []⟩ true 1000).val = (2 * 0) % 2 ^ 64 := by
  have h := window_classification ⟨0, 0, 0, false, true, []⟩ true 1000 (by decide) rfl rfl
  have h1 := h.1 (by decide)
  exact ⟨h1.2.1, h1.1⟩

/-! ## C4: enqueue guard and boundary reset -/

/-- C4 counterexample: the claim calls every gap within plus or minus 100 us
of 4000 us (inclusively, as the specification's closed interval does) a
boundary and demands that the accumulator and bit_count be reset after it.
At d = 3900, with gotone set and a rising edge, the code's strict comparison
d > 4000 - TOL fails and nothing is reset. -/
theorem boundary_endpoint_counterexample :
    (4000 - TOL ≤ duration 3900 0 ∧ duration 3900 0 ≤ 4000 + TOL) ∧
    (handleInterrupt ⟨3, 0, 5, false, true, []⟩ true 3900).val = 3 ∧
    (handleInterrupt ⟨3, 0, 5, false, true, []⟩ true 3900).bits = 5 := by
  decide

/-- Fifo case analysis for the interrupt handler: either the queue is
untouched, or the edge was a strictly classified boundary with bit_count 36
and the accumulator was enqueued and reset. -/
lemma handleInterrupt_fifo_cases (st : RxState) (s : Bool) (t : Nat) :
    (handleInterrupt st s t).fifo = st.fifo ∨
    (st.s0 ≠ s ∧ s = true ∧ st.gotone = true ∧
      4000 - TOL < duration t st.t0 ∧ duration t st.t0 < 4000 + TOL ∧
      st.bits = 36 ∧ (handleInterrupt st s t).fifo = enqueue st.fifo st.val ∧
      (handleInterrupt st s t).val = 0 ∧ (handleInterrupt st s t).bits = 0) := by
  unfold handleInterrupt
  by_cases h1 : st.s0 ≠ s
  case neg => rw [if_neg h1]; left; rfl
  rw [if_pos h1]
  by_cases h2 : s = true
  case neg =>
    rw [if_neg h2]; left
    split_ifs <;> rfl
  rw [if_pos h2]
  by_cases h3 : st.gotone = true
  case neg => rw [if_neg h3]; left; rfl
  rw [if_pos h3]
  by_cases w1 : 1000 - TOL < duration t st.t0 ∧ duration t st.t0 < 1000 + TOL
  · rw [if_pos w1]; left; rfl
  rw [if_neg w1]
  by_cases w2 : 2000 - TOL < duration t st.t0 ∧ duration t st.t0 < 2000 + TOL
  · rw [if_pos w2]; left; rfl
  rw [if_neg w2]
  by_cases w4 : 4000 - TOL < duration t st.t0 ∧ duration t st.t0 < 4000 + TOL
  case neg => rw [if_neg w4]; left; rfl
  rw [if_pos w4]
  by_cases hb : st.bits = 36
  · right
    exact ⟨h1, h2, h3, w4.1, w4.2, hb, by rw [if_pos hb], rfl, rfl⟩
  · left
    rw [if_neg hb]

/-- C4 amended: a frame value is enqueued only when a rising edge with
gotone set arrives whose duration lies strictly within 100 us of 4000 us and
bit_count is exactly 36 at that moment (and then the enqueued value is the
accumulator); and after every such strictly classified boundary, whether or
not an enqueue happened, the accumulator and bit_count are reset to 0. -/
theorem enqueue_guard (st : RxState) (s : Bool) (t : Nat) :
    ((handleInterrupt st s t).fifo ≠ st.fifo →
      st.s0 ≠ s ∧ s = true ∧ st.gotone = true ∧
      4000 - TOL < duration t st.t0 ∧ duration t st.t0 < 4000 + TOL ∧
      st.bits = 36 ∧ (handleInterrupt st s t).fifo = enqueue st.fifo st.val) ∧
    (st.s0 ≠ s → s = true → st.gotone = true →
      4000 - TOL < duration t st.t0 → duration t st.t0 < 4000 + TOL →
      (handleInterrupt st s t).val = 0 ∧ (handleInterrupt st s t).bits = 0) := by
  constructor
  · intro hne
    rcases handleInterrupt_fifo_cases st s t with h | h
    · exact absurd h hne
    · exact ⟨h.1, h.2.1, h.2.2.1, h.2.2.2.1, h.2.2.2.2.1, h.2.2.2.2.2.1,
        h.2.2.2.2.2.2.1⟩
  · intro e1 e2 e3 e4 e5
    subst e2
    unfold handleInterrupt
    rw [if_pos e1, if_pos rfl, if_pos e3,
      if_neg (by simp only [TOL] at e4 e5 ⊢; omega),
      if_neg (by simp only [TOL] at e4 e5 ⊢; omega),
      if_pos ⟨e4, e5⟩]
    exact ⟨rfl, rfl⟩

/-- Witness for the amended C4: a boundary edge at d = 4000 with bit_count
36 enqueues the accumulator and resets both counters. -/
theorem enqueue_guard_witness :
    (handleInterrupt ⟨7, 0, 36, false, true, []⟩ true 4000).val = 0 ∧
    (handleInterrupt ⟨7, 0, 36, false, true, []⟩ true 4000).bits = 0 := by
  have h := enqueue_guard ⟨7, 0, 36, false, true, []⟩ true 4000
  exact h.2 (by decide) rfl rfl (by decide) (by decide)

/-! ## C5: refval update on marker failure -/

/-- C5 counterexample: frame 1 fails the marker check, and the claim says
the Evaluator then updates reference_frame to it.  In the code the
refval = lval assignment (line 194) sits inside the marker-check branch, so
after draining the single frame 1 from reference 0 the reference is still 0,
not 1. -/
theorem refval_marker_fail_counterexample :
    markerOk 1 = false ∧ (drain [1] 0 false).refval = 0 ∧
    (drain [1] 0 false).refval ≠ 1 := by
  decide

/-- C5 amended: a dequeued frame that fails the marker check leaves the
evaluator state entirely unchanged (reference_frame included); refval is
updated only for frames that pass the marker check. -/
theorem marker_fail_skips (f : Nat) (rest : List Nat) (r : Nat) (tvs : Bool)
    (h : markerOk f = false) :
    drain (f :: rest) r tvs = drain rest r tvs := by
  simp [drain, h]

/-- Witness for the amended C5 at frame 1 (marker bits 0001): draining it
first is the same as not having it queued at all. -/
theorem marker_fail_skips_witness :
    drain [1, 3840] 0 false = drain [3840] 0 false :=
  marker_fail_skips 1 [3840] 0 false (by decide)

/-! ## C2 and C9: the evaluation tick -/

/-- Step lemma: after an acceptance (twoValidSets true) frames are dequeued
without any effect. -/
lemma drain_cons_true (f : Nat) (rest : List Nat) (r : Nat) :
    drain (f :: rest) r true = drain rest r true := by
  simp [drain]

/-- Step lemma: a marker-failing frame is dequeued without any effect. -/
lemma drain_cons_fail (f : Nat) (rest : List Nat) (r : Nat) (tvs : Bool)
    (h : markerOk f = false) :
    drain (f :: rest) r tvs = drain rest r tvs := by
  simp [drain, h]

/-- Step lemma: a marker-valid frame different from the reference becomes
the new reference. -/
lemma drain_cons_new (f : Nat) (rest : List Nat) (r : Nat)
    (h : markerOk f = true) (hne : f ≠ r) :
    drain (f :: rest) r false = drain rest f false := by
  simp [drain, h, hne]

/-- Step lemma: a marker-valid frame equal to the reference is accepted,
emitted, and the queue is flushed. -/
lemma drain_cons_accept (f : Nat) (rest : List Nat) (r : Nat)
    (h : markerOk f = true) (he : f = r) :
    drain (f :: rest) r false = ⟨[f], [], f, true⟩ := by
  subst he
  simp [drain, h]

/-- At most one record is emitted per evaluation tick: acceptance flushes
the queue and stops the scan. -/
lemma drain_emitted_length_le_one : ∀ (l : List Nat) (r : Nat) (tvs : Bool),
    ((drain l r tvs).emitted).length ≤ 1 := by
  intro l
  induction l with
  | nil => intro r tvs; simp [drain]
  | cons f rest ih =>
    intro r tvs
    simp only [drain]
    by_cases h1 : tvs = false
    · rw [if_pos h1]
      by_cases h2 : markerOk f = true
      · rw [if_pos h2]
        by_cases h3 : f = r
        · rw [if_pos h3]; simp
        · rw [if_neg h3]; exact ih _ _
      · rw [if_neg h2]; exact ih _ _
    · rw [if_neg h1]; exact ih _ _

/-- The while loop always leaves the queue empty: either it drains every
frame or the acceptance flush discards the remainder. -/
lemma drain_leftover_nil : ∀ (l : List Nat) (r : Nat) (tvs : Bool),
    (drain l r tvs).leftover = [] := by
  intro l
  induction l with
  | nil => intro r tvs; simp [drain]
  | cons f rest ih =>
    intro r tvs
    simp only [drain]
    by_cases h1 : tvs = false
    · rw [if_pos h1]
      by_cases h2 : markerOk f = true
      · rw [if_pos h2]
        by_cases h3 : f = r
        · rw [if_pos h3]
        · rw [if_neg h3]; exact ih _ _
      · rw [if_neg h2]; exact ih _ _
    · rw [if_neg h1]; exact ih _ _

/-- A queue containing two adjacent copies of a marker-valid frame always
produces an emission, whatever reference value the scan starts from. -/
lemma drain_pair_emits : ∀ (l1 : List Nat) (f : Nat) (l2 : List Nat) (r : Nat),
    markerOk f = true → 1 ≤ ((drain (l1 ++ f :: f :: l2) r false).emitted).length := by
  intro l1
  induction l1 with
  | nil =>
    intro f l2 r hm
    rw [List.nil_append]
    by_cases h3 : f = r
    · rw [drain_cons_accept f (f :: l2) r hm h3]; simp
    · rw [drain_cons_new f (f :: l2) r hm h3,
        drain_cons_accept f l2 f hm rfl]
      simp
  | cons g l1 ih =>
    intro f l2 r hm
    rw [List.cons_append]
    cases h2 : markerOk g with
    | true =>
      by_cases h3 : g = r
      · rw [drain_cons_accept g (l1 ++ f :: f :: l2) r h2 h3]; simp
      · rw [drain_cons_new g (l1 ++ f :: f :: l2) r h2 h3]
        exact ih f l2 g hm
    | false =>
      rw [drain_cons_fail g (l1 ++ f :: f :: l2) r false h2]
      exact ih f l2 r hm

/-- C2: starting from the reset validation state (refval 0, twoValidSets
false), if the drained queue contains two consecutive identical 36-bit
frames whose bits 8 to 11 are 1111, then exactly one record is emitted in
that tick, and the queue is left empty (the acceptance flush discards every
frame still queued). -/
theorem duplicate_pair_single_emission (l1 l2 : List Nat) (f : Nat)
    (h36 : f < 2 ^ 36) (hm : markerOk f = true) :
    ((drain (l1 ++ f :: f :: l2) 0 false).emitted).length = 1 ∧
    (drain (l1 ++ f :: f :: l2) 0 false).leftover = [] :=
  ⟨Nat.le_antisymm (drain_emitted_length_le_one _ _ _) (drain_pair_emits l1 f l2 0 hm),
    drain_leftover_nil _ _ _⟩

/-- Witness for C2 with the queue holding exactly two copies of frame 0xF00
(and, through the arbitrary tail, the flush keeping later duplicates from
emitting again). -/
theorem duplicate_pair_single_emission_witness :
    ((drain ([] ++ 3840 :: 3840 :: [3840, 3840]) 0 false).emitted).length = 1 ∧
    (drain ([] ++ 3840 :: 3840 :: [3840, 3840]) 0 false).leftover = [] :=
  duplicate_pair_single_emission [] [3840, 3840] 3840 (by decide) (by decide)

/-- A frame that passes the marker check has bits 8 to 11 set, so it cannot
be zero. -/
lemma markerOk_ne_zero (f : Nat) (h : markerOk f = true) : f ≠ 0 := by
  intro h0
  subst h0
  exact absurd h (by decide)

/-- Counting lemma behind C9: an emission requires two marker-valid frames,
or one when the scan already starts from a nonzero marker-valid reference. -/
lemma drain_emit_needs_two : ∀ (l : List Nat) (r : Nat),
    (drain l r false).emitted ≠ [] →
    (if markerOk r = true ∧ r ≠ 0 then 1 else 2) ≤ l.countP (fun g => markerOk g) := by
  intro l
  induction l with
  | nil =>
    intro r h
    simp [drain] at h
  | cons f rest ih =>
    intro r h
    have hc : (f :: rest).countP (fun g => markerOk g) =
        rest.countP (fun g => markerOk g) + (if markerOk f = true then 1 else 0) := by
      simp [List.countP_cons]
    rw [hc]
    cases h2 : markerOk f with
    | false =>
      rw [drain_cons_fail f rest r false h2] at h
      have hrec := ih r h
      simpa using hrec
    | true =>
      rw [if_pos rfl]
      by_cases h3 : f = r
      · subst h3
        rw [if_pos ⟨h2, markerOk_ne_zero f h2⟩]
        omega
      · rw [drain_cons_new f rest r h2 h3] at h
        have hrec := ih f h
        rw [if_pos ⟨h2, markerOk_ne_zero f h2⟩] at hrec
        have hb : (if markerOk r = true ∧ r ≠ 0 then (1 : Nat) else 2) ≤ 2 := by
          split_ifs <;> omega
        omega


/-- C9: no frame that passes the marker check can be zero, so with refval
reset to 0 at the start of a tick the duplicate check never accepts the
first marker-valid frame of the tick, and every emitted record requires at
least two marker-valid frames dequeued within that tick. -/
theorem emission_needs_two_valid :
    (∀ f : Nat, markerOk f = true → f ≠ 0) ∧
    (∀ l : List Nat, (drain l 0 false).emitted ≠ [] →
      2 ≤ l.countP (fun g => markerOk g)) := by
  refine ⟨markerOk_ne_zero, fun l h => ?_⟩
  have hrec := drain_emit_needs_two l 0 h
  rwa [if_neg (by simp)] at hrec

/-- Witness for C9: the tick over the queue holding frame 0xF00 twice emits,
and indeed two marker-valid frames were dequeued. -/
theorem emission_needs_two_valid_witness :
    (3840 : Nat) ≠ 0 ∧ 2 ≤ List.countP (fun g => markerOk g) [3840, 3840] :=
  ⟨emission_needs_two_valid.1 3840 (by decide),
    emission_needs_two_valid.2 [3840, 3840] (by decide)⟩

/-! ## C3: temperature extraction -/

/-- Unfolding equation for the temperature extraction. -/
lemma temperature_eq (lval : Nat) :
    temperature lval =
      if (lval >>> 23) &&& 0x1 = 0b1 then
        i16 (u16 (u16 ((lval >>> 12) &&& 0xFFF) ||| 0xFFFFF000))
      else i16 ((lval >>> 12) &&& 0xFFF) := rfl

/-- Unfolding equation for the int16_t reinterpretation. -/
lemma i16_eq (n : Nat) :
    i16 n = if n % 65536 < 32768 then ((n % 65536 : Nat) : Int)
      else ((n % 65536 : Nat) : Int) - 65536 := rfl

/-- C3: for every frame, the extracted temperature is the 12-bit field
(f >>> 12) &&& 0xFFF read as a signed two's complement value: with sign bit
(bit 23) set the field is sign-extended to a negative 16-bit value, with the
sign bit clear the field is the non-negative value itself.  In particular
field 0xFF7 gives -9 tenths of a degree and field 0x00A gives 10. -/
theorem temperature_sign_extension (f : Nat) :
    temperature f = signExtend12 ((f >>> 12) &&& 0xFFF) ∧
    temperature 0xFF7000 = -9 ∧ temperature 0xA000 = 10 := by
  refine ⟨?_, by decide, by decide⟩
  have hf : (f >>> 12) &&& 0xFFF = (f >>> 12) % 4096 := by
    have h1 := Nat.and_pow_two_sub_one_eq_mod (f >>> 12) 12
    norm_num at h1
    exact h1
  have hs : (f >>> 23) &&& 0x1 = ((f >>> 12) / 2048) % 2 := by
    have hsh : f >>> 23 = (f >>> 12) >>> 11 := by
      rw [← Nat.shiftRight_add]
    rw [hsh, Nat.and_one_is_mod, Nat.shiftRight_eq_div_pow]
  rw [temperature_eq, signExtend12, hf, hs]
  by_cases hsign : (f >>> 12) / 2048 % 2 = 1
  · rw [if_pos hsign]
    simp only [u16]
    have hb : (f >>> 12) % 4096 % 65536 = (f >>> 12) % 4096 := by omega
    rw [hb]
    have hor2 : (f >>> 12) % 4096 ||| 0xFFFFF000 = (f >>> 12) % 4096 + 4294963200 := by
      have h1 := Nat.mul_add_lt_is_or (show (f >>> 12) % 4096 < 2 ^ 12 by omega) 1048575
      norm_num at h1
      rw [Nat.or_comm]
      omega
    rw [hor2, i16_eq]
    rw [if_neg (by omega)]
    rw [if_neg (show ¬((f >>> 12) % 4096 < 2 ^ 11) by omega)]
    push_cast
    omega
  · rw [if_neg hsign, i16_eq]
    rw [if_pos (by omega)]
    rw [if_pos (show (f >>> 12) % 4096 < 2 ^ 11 by omega)]
    push_cast
    omega

/-! ## C7: width of enqueued values -/

/-- Unfolding equation for running one edge. -/
lemma runEdges_cons (st : RxState) (e : Bool × Nat) (es : List (Bool × Nat)) :
    runEdges st (e :: es) = runEdges (handleInterrupt st e.1 e.2) es := rfl

/-- Unfolding equation for running no edges. -/
lemma runEdges_nil (st : RxState) : runEdges st [] = st := rfl

/-- A falling edge after 500 us sets gotone. -/
lemma handleInterrupt_fall500 (st : RxState) (t : Nat) (hs0 : st.s0 = true)
    (hd : duration t st.t0 = 500) :
    handleInterrupt st false t = { st with gotone := true, t0 := t, s0 := false } := by
  unfold handleInterrupt
  rw [hd, if_pos (by rw [hs0]; decide), if_neg (by decide : ¬(false = true)),
    if_pos (by norm_num [TOL])]

/-- A rising edge after a 2000 us low period appends a 1 bit. -/
lemma handleInterrupt_rise2000 (st : RxState) (t : Nat) (hs0 : st.s0 = false)
    (hg : st.gotone = true) (hd : duration t st.t0 = 2000) :
    handleInterrupt st true t =
      { st with val := ((st.val <<< 1) % 2 ^ 64) ||| 1,
                bits := (st.bits + 1) % 256, t0 := t, s0 := true } := by
  unfold handleInterrupt
  rw [hd, if_pos (by rw [hs0]; decide), if_pos rfl, if_pos hg,
    if_neg (by norm_num [TOL]), if_pos (by norm_num [TOL])]

/-- A rising edge after a 4000 us low period is a frame boundary. -/
lemma handleInterrupt_rise4000 (st : RxState) (t : Nat) (hs0 : st.s0 = false)
    (hg : st.gotone = true) (hd : duration t st.t0 = 4000) :
    handleInterrupt st true t =
      { st with fifo := if st.bits = 36 then enqueue st.fifo st.val else st.fifo,
                val := 0, bits := 0, t0 := t, s0 := true } := by
  unfold handleInterrupt
  rw [hd, if_pos (by rw [hs0]; decide), if_pos rfl, if_pos hg,
    if_neg (by norm_num [TOL]), if_neg (by norm_num [TOL]), if_pos (by norm_num [TOL])]

/-- Accumulator closed form: appending one more 1 bit to the all-ones value
composes as expected modulo 2^64. -/
lemma onesVal_cons (v n : Nat) :
    (((2 * v + 1) % 2 ^ 64 + 1) * 2 ^ n - 1) % 2 ^ 64 =
      ((v + 1) * 2 ^ (n + 1) - 1) % 2 ^ 64 := by
  have hmod : (2 * v + 1) % 2 ^ 64 ≡ 2 * v + 1 [MOD 2 ^ 64] := Nat.mod_modEq _ _
  have h2 : ((2 * v + 1) % 2 ^ 64 + 1) * 2 ^ n ≡ (2 * v + 1 + 1) * 2 ^ n [MOD 2 ^ 64] :=
    (hmod.add_right 1).mul_right _
  have he : (2 * v + 1 + 1) * 2 ^ n = (v + 1) * 2 ^ (n + 1) := by ring
  rw [he] at h2
  have hx : 0 < ((2 * v + 1) % 2 ^ 64 + 1) * 2 ^ n := by positivity
  have hy : 0 < (v + 1) * 2 ^ (n + 1) := by positivity
  have h2x : (((2 * v + 1) % 2 ^ 64 + 1) * 2 ^ n) % 2 ^ 64 =
      ((v + 1) * 2 ^ (n + 1)) % 2 ^ 64 := h2
  set X := ((2 * v + 1) % 2 ^ 64 + 1) * 2 ^ n with hX
  set Y := (v + 1) * 2 ^ (n + 1) with hY
  omega

/-- Running n cycles of (500 us pulse, 2000 us low) followed by a final
(500 us pulse, 4000 us gap): the accumulator collects n one bits (saturating
at 64), the bit counter advances modulo 256, and the boundary enqueues the
accumulator exactly when the wrapped counter reads 36. -/
lemma run_mkOnes : ∀ (n : Nat) (st : RxState) (T : Nat),
    st.s0 = true → st.t0 = T → st.bits < 256 → st.val < 2 ^ 64 →
    T + 2500 * n + 4500 < 2 ^ 32 →
    runEdges st (mkOnes n T) =
      { val := 0, t0 := T + 2500 * n + 4500, bits := 0, s0 := true, gotone := true,
        fifo := if (st.bits + n) % 256 = 36
          then enqueue st.fifo (((st.val + 1) * 2 ^ n - 1) % 2 ^ 64)
          else st.fifo } := by
  intro n
  induction n with
  | zero =>
    intro st T hs0 ht0 hbits hval hT
    rw [show mkOnes 0 T = [(false, T + 500), (true, T + 4500)] from rfl,
      runEdges_cons, runEdges_cons, runEdges_nil]
    have hd1 : duration (T + 500) st.t0 = 500 := by
      rw [ht0]; unfold duration; omega
    rw [handleInterrupt_fall500 st (T + 500) hs0 hd1]
    have hd2 : duration (T + 4500)
        ({ st with gotone := true, t0 := T + 500, s0 := false } : RxState).t0 = 4000 := by
      show duration (T + 4500) (T + 500) = 4000
      unfold duration; omega
    rw [handleInterrupt_rise4000 _ _ rfl rfl hd2]
    simp only [show (st.bits + 0) % 256 = st.bits from by omega,
      show ((st.val + 1) * 2 ^ 0 - 1) % 2 ^ 64 = st.val from by omega,
      show T + 2500 * 0 + 4500 = T + 4500 from by ring]
  | succ n ih =>
    intro st T hs0 ht0 hbits hval hT
    rw [show mkOnes (n + 1) T = (false, T + 500) :: (true, T + 2500) :: mkOnes n (T + 2500)
        from rfl,
      runEdges_cons, runEdges_cons]
    have hd1 : duration (T + 500) st.t0 = 500 := by
      rw [ht0]; unfold duration; omega
    rw [handleInterrupt_fall500 st (T + 500) hs0 hd1]
    have hd2 : duration (T + 2500)
        ({ st with gotone := true, t0 := T + 500, s0 := false } : RxState).t0 = 2000 := by
      show duration (T + 2500) (T + 500) = 2000
      unfold duration; omega
    rw [handleInterrupt_rise2000 _ _ rfl rfl hd2]
    have hv2 : ((st.val <<< 1) % 2 ^ 64) ||| 1 = (2 * st.val + 1) % 2 ^ 64 := by
      rw [Nat.shiftLeft_eq, show st.val * 2 ^ 1 = 2 * st.val from by ring,
        or_one_of_even _ (by omega)]
      omega
    rw [hv2]
    rw [ih { val := (2 * st.val + 1) % 2 ^ 64, t0 := T + 2500,
             bits := (st.bits + 1) % 256, s0 := true, gotone := true, fifo := st.fifo }
        (T + 2500) rfl rfl (show (st.bits + 1) % 256 < 256 by omega)
        (show (2 * st.val + 1) % 2 ^ 64 < 2 ^ 64 by omega)
        (show T + 2500 + 2500 * n + 4500 < 2 ^ 32 by omega)]
    rw [show ((st.bits + 1) % 256 + n) % 256 = (st.bits + (n + 1)) % 256 from by omega,
      onesVal_cons,
      show T + 2500 + 2500 * n + 4500 = T + 2500 * (n + 1) + 4500 from by ring]

/-- C7 counterexample: 292 perfectly timed 1 bits arrive without any frame
boundary, so the uint8_t bit counter wraps and reads 36 again while the
64-bit accumulator holds 2^64 - 1.  The next boundary gap passes the
bit_count == 36 check and enqueues a value far above 2^36. -/
theorem enqueue_width_counterexample :
    (runEdges initState ((true, 700) :: mkOnes 292 700)).fifo = [18446744073709551615] ∧
    ¬(18446744073709551615 < 2 ^ 36) := by
  constructor
  · rw [runEdges_cons,
      show handleInterrupt initState true 700 =
        { val := 0, t0 := 700, bits := 0, s0 := true, gotone := false, fifo := [] }
        from rfl]
    rw [run_mkOnes 292 _ 700 rfl rfl (by norm_num) (by norm_num) (by norm_num)]
    norm_num [enqueue, fifoCapacity]
  · decide

/-- The invariant holds initially. -/
lemma countedInv_init : countedInv initState 0 := by
  refine ⟨rfl, ?_⟩
  decide

/-- Appending one bit keeps the accumulator below the saturating power
bound. -/
lemma val_append_bound {v n : Nat} (hv : v < 2 ^ min n 64) (b : Nat) (hb : b ≤ 1) :
    (2 * v + b) % 2 ^ 64 < 2 ^ min (n + 1) 64 := by
  by_cases hn : n < 64
  · have h64 : min n 64 = n := by omega
    have h64x : min (n + 1) 64 = n + 1 := by omega
    rw [h64] at hv
    rw [h64x]
    have h2 : 2 * v + b < 2 ^ (n + 1) := by
      rw [pow_succ]
      omega
    have hle : (2 : Nat) ^ (n + 1) ≤ 2 ^ 64 := Nat.pow_le_pow_right (by norm_num) (by omega)
    rw [Nat.mod_eq_of_lt (by omega)]
    exact h2
  · have h64x : min (n + 1) 64 = 64 := by omega
    rw [h64x]
    exact Nat.mod_lt _ (by norm_num)

/-- The interrupt handler preserves the ghost-counter invariant. -/
lemma countedInv_step (st : RxState) (n : Nat) (s : Bool) (t : Nat)
    (h : countedInv st n) :
    countedInv (handleInterrupt st s t) (ghostCount st s t n) := by
  obtain ⟨hb, hv⟩ := h
  have hval : st.val <<< 1 = 2 * st.val := by
    rw [Nat.shiftLeft_eq]; ring
  unfold handleInterrupt ghostCount
  by_cases h1 : st.s0 ≠ s
  case neg =>
    rw [if_neg h1,
      if_neg (show ¬(st.s0 ≠ s ∧ s = true ∧ st.gotone = true) from fun hc => h1 hc.1)]
    exact ⟨hb, hv⟩
  rw [if_pos h1]
  by_cases h2 : s = true
  case neg =>
    rw [if_neg h2,
      if_neg (show ¬(st.s0 ≠ s ∧ s = true ∧ st.gotone = true) from fun hc => h2 hc.2.1)]
    by_cases w : 500 - TOL < duration t st.t0 ∧ duration t st.t0 < 500 + TOL
    · rw [if_pos w]; exact ⟨hb, hv⟩
    · rw [if_neg w]; exact ⟨hb, hv⟩
  rw [if_pos h2]
  by_cases h3 : st.gotone = true
  case neg =>
    rw [if_neg h3,
      if_neg (show ¬(st.s0 ≠ s ∧ s = true ∧ st.gotone = true) from fun hc => h3 hc.2.2)]
    exact ⟨hb, hv⟩
  rw [if_pos h3,
    if_pos (show st.s0 ≠ s ∧ s = true ∧ st.gotone = true from ⟨h1, h2, h3⟩)]
  by_cases w1 : 1000 - TOL < duration t st.t0 ∧ duration t st.t0 < 1000 + TOL
  · rw [if_pos w1, if_pos w1]
    constructor
    · show (st.bits + 1) % 256 = (n + 1) % 256
      omega
    · show (st.val <<< 1) % 2 ^ 64 < 2 ^ min (n + 1) 64
      rw [hval]
      have hres := val_append_bound hv 0 (by norm_num)
      simpa using hres
  rw [if_neg w1, if_neg w1]
  by_cases w2 : 2000 - TOL < duration t st.t0 ∧ duration t st.t0 < 2000 + TOL
  · rw [if_pos w2, if_pos w2]
    constructor
    · show (st.bits + 1) % 256 = (n + 1) % 256
      omega
    · show ((st.val <<< 1) % 2 ^ 64) ||| 1 < 2 ^ min (n + 1) 64
      rw [hval, or_one_of_even ((2 * st.val) % 2 ^ 64) (by omega)]
      have hres := val_append_bound hv 1 (le_refl 1)
      omega
  rw [if_neg w2, if_neg w2]
  by_cases w4 : 4000 - TOL < duration t st.t0 ∧ duration t st.t0 < 4000 + TOL
  · rw [if_pos w4, if_pos w4]
    exact ⟨rfl, show (0 : Nat) < 2 ^ min 0 64 by decide⟩
  rw [if_neg w4, if_neg w4]
  exact ⟨hb, hv⟩

/-- C7 amended: relative to the ghost count n of bits appended since the
last reset (an invariant established at the initial state and preserved by
every interrupt), an enqueue can only happen with n congruent to 36 modulo
256; the enqueued accumulator is always below 2^64, and it is below 2^36
exactly when no uint8_t wrap occurred, i.e. when n is exactly 36.  (The
original claim fails because n = 292 also passes the bit_count == 36 check;
see the counterexample.) -/
theorem enqueue_value_bound :
    countedInv initState 0 ∧
    (∀ (st : RxState) (n : Nat) (s : Bool) (t : Nat), countedInv st n →
      countedInv (handleInterrupt st s t) (ghostCount st s t n)) ∧
    (∀ (st : RxState) (n : Nat) (s : Bool) (t : Nat), countedInv st n →
      (handleInterrupt st s t).fifo ≠ st.fifo →
      n % 256 = 36 ∧ st.val < 2 ^ 64 ∧
      (handleInterrupt st s t).fifo = enqueue st.fifo st.val ∧
      (n = 36 → st.val < 2 ^ 36)) := by
  refine ⟨countedInv_init, countedInv_step, fun st n s t h hne => ?_⟩
  rcases handleInterrupt_fifo_cases st s t with he | hc
  · exact absurd he hne
  · obtain ⟨hbits, hval⟩ := h
    have h36 : st.bits = 36 := hc.2.2.2.2.2.1
    have hmono : (2 : Nat) ^ min n 64 ≤ 2 ^ 64 :=
      Nat.pow_le_pow_right (by norm_num) (min_le_right n 64)
    refine ⟨by omega, by omega, hc.2.2.2.2.2.2.1, fun hn => ?_⟩
    subst hn
    simpa using hval

/-- Witness for the amended C7: a clean 36-bit frame (accumulator 5) is
enqueued at the boundary and is indeed below 2^36. -/
theorem enqueue_value_bound_witness :
    36 % 256 = 36 ∧ (5 : Nat) < 2 ^ 64 ∧
    (handleInterrupt ⟨5, 0, 36, false, true, []⟩ true 4000).fifo = enqueue [] 5 ∧
    ((36 : Nat) = 36 → (5 : Nat) < 2 ^ 36) :=
  enqueue_value_bound.2.2 ⟨5, 0, 36, false, true, []⟩ 36 true 4000
    ⟨rfl, by decide⟩ (by decide)

/-! ## C8: record format -/

/-- Reassociation step for merging adjacent string literals. -/
lemma strMerge (a b ab : String) (h : a ++ b = ab) (r : String) :
    a ++ (b ++ r) = ab ++ r := by
  rw [← String.append_assoc, h]

/-- C8: for every accepted reading, the emitted line is exactly the literal
template database,qth=locator,sensor=type,number=id
temperature=t,battery=b,humidity=h with the configured tags and the
extracted values substituted, in exactly this field order. -/
theorem record_format (id : Nat) (temperature : Int) (battery : Nat) (humidity : Nat) :
    sendDataToSerial id temperature battery humidity =
      specRecord id temperature battery humidity := by
  unfold sendDataToSerial specRecord databasename qthlocator sensortyp
    measuredProperty1 measuredProperty2 measuredProperty3
  simp only [String.append_assoc]
  rw [strMerge "telemetrie" ",qth=" "telemetrie,qth=" (by decide)]
  rw [strMerge "telemetrie,qth=" "JN58SC" "telemetrie,qth=JN58SC" (by decide)]
  rw [strMerge "telemetrie,qth=JN58SC" ",sensor=" "telemetrie,qth=JN58SC,sensor="
    (by decide)]
  rw [strMerge "telemetrie,qth=JN58SC,sensor=" "Nexus" "telemetrie,qth=JN58SC,sensor=Nexus"
    (by decide)]
  rw [strMerge "telemetrie,qth=JN58SC,sensor=Nexus" ",number="
    "telemetrie,qth=JN58SC,sensor=Nexus,number=" (by decide)]
  rw [strMerge " " "temperature" " temperature" (by decide)]
  rw [strMerge " temperature" "=" " temperature=" (by decide)]
  rw [strMerge "," "battery" ",battery" (by decide)]
  rw [strMerge ",battery" "=" ",battery=" (by decide)]
  rw [strMerge "," "humidity" ",humidity" (by decide)]
  rw [strMerge ",humidity" "=" ",humidity=" (by decide)]

end Nexus
